import Mathlib

/-!
Verification development for the rudocx document engine: a shallow
embedding of its data model (elements), relationship registry (rels),
and the XML decoder and encoder state machines (xml/read.rs and
xml/write.rs), together with theorems settling the specified properties.

The decoder and encoder are embedded at the level of the flat XML event
stream (element-open with attributes, self-closing element with
attributes, text, element-close, end-of-input): this is exactly the
interface between the core state machine and the external XML library,
and the code under verification is the per-event handler logic.
-/

namespace Rudocx

/- ### Rust numeric-string helpers

Faithful models of the standard-library string-to-integer conversions the
source calls (str::parse for u8, u32, i32) and of decimal formatting as
used by the format macro. Rust parse accepts an optional leading sign
(for unsigned types a minus sign is accepted only when the value works
out to zero) followed by one or more ASCII decimal digits, and fails on
overflow of the target width. -/

def charVal (c : Char) : Nat := c.toNat - 48

def digitsVal (l : List Char) : Nat :=
  l.foldl (fun a c => a * 10 + charVal c) 0

/-- Core of str::parse for unsigned integers of bit width w, on the
character list of the input string. -/
def rustParseUnsignedCore (w : Nat) (l : List Char) : Option Nat :=
  match l with
  | [] => none
  | c :: rest =>
    let ds := if c = '+' ∨ c = '-' then rest else c :: rest
    if ds = [] then none
    else if ds.all Char.isDigit then
      if c = '-' then (if digitsVal ds = 0 then some 0 else none)
      else if digitsVal ds < 2 ^ w then some (digitsVal ds) else none
    else none

def rustParseU32 (s : String) : Option Nat :=
  rustParseUnsignedCore 32 s.data

def rustParseU8 (s : String) : Option Nat :=
  rustParseUnsignedCore 8 s.data

/-- Model of str::parse for i32. -/
def rustParseI32 (s : String) : Option Int :=
  match s.data with
  | [] => none
  | c :: rest =>
    let ds := if c = '+' ∨ c = '-' then rest else c :: rest
    if ds = [] then none
    else if ds.all Char.isDigit then
      if c = '-' then
        (if digitsVal ds ≤ 2 ^ 31 then some (-(digitsVal ds : Int)) else none)
      else if digitsVal ds < 2 ^ 31 then some ((digitsVal ds : Int)) else none
    else none

/-- Decimal digits of n, most significant first, by fuel-guarded
structural recursion (the fuel n + 1 always suffices, since the argument
at least halves at every step). -/
def natCharsAux : Nat → Nat → List Char
  | 0, _ => []
  | fuel + 1, n =>
    if n < 10 then [Nat.digitChar n]
    else natCharsAux fuel (n / 10) ++ [Nat.digitChar (n % 10)]

/-- Decimal digits of n, most significant first, as printed by the Rust
format macro. -/
def natChars (n : Nat) : List Char := natCharsAux (n + 1) n

def natToString (n : Nat) : String := ⟨natChars n⟩

def intToString (i : Int) : String :=
  if i < 0 then ⟨'-' :: natChars i.natAbs⟩ else natToString i.natAbs

def boolToString (b : Bool) : String := if b then "true" else "false"

/- ### Attribute iteration

The source walks an Attributes iterator and calls find repeatedly.
Iterator::find consumes elements up to and including the first match;
when no element matches, the iterator is exhausted. attrFind returns the
value of the first pair with the given key together with the remaining
(unconsumed) pairs; on failure the remainder is empty, mirroring the
exhausted iterator. -/

def attrFind (attrs : List (String × String)) (key : String) :
    Option String × List (String × String) :=
  match attrs with
  | [] => (none, [])
  | (k, v) :: rest => if k = key then (some v, rest) else attrFind rest key

/-- Value of the first attribute with the given key (a single find call on
a fresh iterator). -/
def attrVal (attrs : List (String × String)) (key : String) : Option String :=
  (attrFind attrs key).1

/- ### Error types (errors/mod.rs; variants reachable in the embedded core) -/

inductive FontTypeTag : Type
  | ascii | hiAnsi | eastAsia | cs
  | asciiTheme | hiAnsiTheme | eastAsiaTheme | csTheme
  | defaultHint
  deriving DecidableEq, Repr

/-- FontType (run_properties/font.rs). The Rust variant named Default is
called defaultHint here to avoid clashing with the Lean default literal. -/
abbrev FontType := FontTypeTag

def FontType.fromString (v : String) : FontType :=
  match v with
  | "ascii" => .ascii
  | "hAnsi" => .hiAnsi
  | "eastAsia" => .eastAsia
  | "cs" => .cs
  | "asciiTheme" => .asciiTheme
  | "hiAnsiTheme" => .hiAnsiTheme
  | "eastAsiaTheme" => .eastAsiaTheme
  | "csTheme" => .csTheme
  | "default" => .defaultHint
  | _ => .defaultHint

def FontType.toDisplay (t : FontType) : String :=
  match t with
  | .ascii => "ascii"
  | .hiAnsi => "hAnsi"
  | .eastAsia => "eastAsia"
  | .cs => "cs"
  | .asciiTheme => "asciiTheme"
  | .hiAnsiTheme => "hiAnsiTheme"
  | .eastAsiaTheme => "eastAsiaTheme"
  | .csTheme => "csTheme"
  | .defaultHint => "default"

/-- RudocxStyleError (errors/mod.rs), restricted to the variants the
embedded code can produce. -/
inductive RudocxStyleError : Type
  | invalidHex (s : String)
  | propertyNotSet (s : String)
  | hintPointsNone (t : FontType)
  | emptyFontSet
  | undefined (s : String)
  deriving DecidableEq, Repr

/-- RudocxParagraphStyleError (used by paragraph_properties/indentation.rs
and shadow.rs; the enum itself is declared in a part of the errors module
not present in src, so the two variants those files construct are taken
from their use sites). -/
inductive RudocxParagraphStyleError : Type
  | mutuallyExclusive (a b : String)
  | invalidShading (s : String)
  deriving DecidableEq, Repr

/-- RudocxError (errors/mod.rs), restricted to the variant the embedded
event-level core can produce: NumParseError carries the failed input in
place of the std ParseIntError payload. The remaining variants concern
file, archive and XML-syntax failures that arise below the event level. -/
inductive RudocxError : Type
  | numParseError (s : String)
  deriving DecidableEq, Repr

end Rudocx

deriving instance DecidableEq for Except

namespace Rudocx

/- ### Colors (elements/common/color.rs) -/

/-- HexColor stores a HEX color code without the leading hash sign. -/
structure HexColor : Type where
  value : String
  deriving DecidableEq, Repr

def HexColor.default : HexColor := ⟨"FFFFFF"⟩

/-- Bitwise NOT on a 64-bit usize, as applied by the unary bang in
check_hex (value.len() is a usize, so the bang is bitwise negation, not
a boolean one). -/
def usizeNot (n : Nat) : Nat := (2 ^ 64 - 1) - n % 2 ^ 64

/-- Model of char::is_ascii_hexdigit. -/
def isAsciiHexDigit (c : Char) : Bool :=
  c.isDigit || ('a' ≤ c && c ≤ 'f') || ('A' ≤ c && c ≤ 'F')

/-- check_hex (elements/common/color.rs line 50): the first test reads
if bang value.len() equals 6, i.e. it compares the bitwise complement of
the length with 6. -/
def check_hex (value : String) : Except RudocxStyleError Unit :=
  if usizeNot value.length = 6 then
    .error (.invalidHex value)
  else if ¬ (value.data.all isAsciiHexDigit) then
    .error (.invalidHex value)
  else
    .ok ()

def HexColor.new (color : String) : HexColor :=
  match check_hex color with
  | .ok _ => ⟨color⟩
  | .error _ => ⟨"FFFFFF"⟩

def HexColor.val (c : HexColor) : String := c.value

/-- change_value mutates self on success and leaves it untouched on
failure; the model returns the resulting struct together with the
returned Result (none standing for Ok). -/
def HexColor.change_value (c : HexColor) (value : String) :
    HexColor × Option RudocxStyleError :=
  match check_hex value with
  | .ok _ => (⟨value⟩, none)
  | .error e => (c, some e)

inductive HighlightPalette : Type
  | yellow | darkYellow | green | darkGreen | cyan | darkCyan
  | magenta | darkMagenta | blue | darkBlue | red | darkRed
  | black | white
  deriving DecidableEq, Repr

def HighlightPalette.fromString (v : String) : HighlightPalette :=
  match v with
  | "yellow" => .yellow
  | "darkYellow" => .darkYellow
  | "green" => .green
  | "darkGreen" => .darkGreen
  | "cyan" => .cyan
  | "darkCyan" => .darkCyan
  | "magenta" => .magenta
  | "darkMagenta" => .darkMagenta
  | "blue" => .blue
  | "darkBlue" => .darkBlue
  | "red" => .red
  | "darkRed" => .darkRed
  | "black" => .black
  | "white" => .white
  | _ => .white

def HighlightPalette.toDisplay (p : HighlightPalette) : String :=
  match p with
  | .yellow => "yellow"
  | .darkYellow => "darkYellow"
  | .green => "green"
  | .darkGreen => "darkGreen"
  | .cyan => "cyan"
  | .darkCyan => "darkCyan"
  | .magenta => "magenta"
  | .darkMagenta => "darkMagenta"
  | .blue => "blue"
  | .darkBlue => "darkBlue"
  | .red => "red"
  | .darkRed => "darkRed"
  | .black => "black"
  | .white => "white"

structure HLColor : Type where
  value : Option HighlightPalette
  deriving DecidableEq, Repr

def HLColor.new (color : HighlightPalette) : HLColor := ⟨some color⟩

def HLColor.val (c : HLColor) : String :=
  match c.value with
  | some v => v.toDisplay
  | none => ""

/- ### Underline (elements/run_properties/underline.rs) -/

inductive UnderlineStyle : Type
  | single | words | double | thick | dotted | dottedHeavy
  | dash | dashedHeavy | dashLong | dashLongHeavy | dotDash
  | dashDotHeavy | dotDotDash | dashDotDotHeavy | wave | wavyHeavy
  | wavyDouble
  deriving DecidableEq, Repr

def UnderlineStyle.fromString (v : String) : UnderlineStyle :=
  match v with
  | "single" => .single
  | "words" => .words
  | "double" => .double
  | "thick" => .thick
  | "dotted" => .dotted
  | "dottedHeavy" => .dottedHeavy
  | "dash" => .dash
  | "dashedHeavy" => .dashedHeavy
  | "dashLong" => .dashLong
  | "dashLongHeavy" => .dashLongHeavy
  | "dotDash" => .dotDash
  | "dashDotHeavy" => .dashDotHeavy
  | "dotDotDash" => .dotDotDash
  | "dashDotDotHeavy" => .dashDotDotHeavy
  | "wave" => .wave
  | "wavyHeavy" => .wavyHeavy
  | "wavyDouble" => .wavyDouble
  | _ => .single

def UnderlineStyle.toDisplay (u : UnderlineStyle) : String :=
  match u with
  | .single => "single"
  | .words => "words"
  | .double => "double"
  | .thick => "thick"
  | .dotted => "dotted"
  | .dottedHeavy => "dottedHeavy"
  | .dash => "dash"
  | .dashedHeavy => "dashedHeavy"
  | .dashLong => "dashLong"
  | .dashLongHeavy => "dashLongHeavy"
  | .dotDash => "dotDash"
  | .dashDotHeavy => "dashDotHeavy"
  | .dotDotDash => "dotDotDash"
  | .dashDotDotHeavy => "dashDotDotHeavy"
  | .wave => "wave"
  | .wavyHeavy => "wavyHeavy"
  | .wavyDouble => "wavyDouble"

structure Underline : Type where
  value : Option UnderlineStyle
  deriving DecidableEq, Repr

def Underline.default : Underline := ⟨none⟩

def Underline.new (style : UnderlineStyle) : Underline := ⟨some style⟩

def Underline.val (u : Underline) : String :=
  match u.value with
  | some v => v.toDisplay
  | none => "None"

/- ### FontSet (elements/run_properties/font.rs; struct layout also in
elements/run_properties/mod.rs) -/

structure FontSet : Type where
  ascii : Option String
  hi_ansi : Option String
  east_asia : Option String
  cs : Option String
  ascii_theme : Option String
  hi_ansi_theme : Option String
  east_asia_theme : Option String
  cs_theme : Option String
  hint : FontType
  deriving DecidableEq, Repr

def FontSet.default : FontSet :=
  { ascii := none, hi_ansi := none, east_asia := none, cs := none
    ascii_theme := none, hi_ansi_theme := none, east_asia_theme := none
    cs_theme := none, hint := .defaultHint }

/-- get_hint: resolve the slot selected by the hint field. -/
def FontSet.get_hint (f : FontSet) : Except RudocxStyleError String :=
  match f.hint with
  | .ascii => match f.ascii with
    | some s => .ok s | none => .error (.hintPointsNone f.hint)
  | .hiAnsi => match f.hi_ansi with
    | some s => .ok s | none => .error (.hintPointsNone f.hint)
  | .eastAsia => match f.east_asia with
    | some s => .ok s | none => .error (.hintPointsNone f.hint)
  | .cs => match f.cs with
    | some s => .ok s | none => .error (.hintPointsNone f.hint)
  | .asciiTheme => match f.ascii_theme with
    | some s => .ok s | none => .error (.hintPointsNone f.hint)
  | .hiAnsiTheme => match f.hi_ansi_theme with
    | some s => .ok s | none => .error (.hintPointsNone f.hint)
  | .eastAsiaTheme => match f.east_asia_theme with
    | some s => .ok s | none => .error (.hintPointsNone f.hint)
  | .csTheme => match f.cs_theme with
    | some s => .ok s | none => .error (.hintPointsNone f.hint)
  | .defaultHint =>
    .error (.undefined "Default hint is fallback. Value must come from Software or System configuration.")

def FontSet.get_hint_value (f : FontSet) : FontType := f.hint

/- ### Vertical alignment (elements/run_properties/vertical_align.rs) -/

inductive AlignValues : Type
  | baseline | superscript | subscript
  deriving DecidableEq, Repr

def AlignValues.fromString (v : String) : AlignValues :=
  match v with
  | "baseline" => .baseline
  | "superscript" => .superscript
  | "subscript" => .subscript
  | _ => .baseline

def AlignValues.toDisplay (a : AlignValues) : String :=
  match a with
  | .baseline => "baseline"
  | .subscript => "subscript"
  | .superscript => "superscript"

structure VerticalAlign : Type where
  value : AlignValues
  deriving DecidableEq, Repr

def VerticalAlign.new (value : AlignValues) : VerticalAlign := ⟨value⟩

def VerticalAlign.val (v : VerticalAlign) : String := v.value.toDisplay

/- ### Paragraph-level leaf types (elements/paragraph_properties/...) -/

inductive ParagraphJustificationValues : Type
  | left | center | right | both | mediumKashida | distributedKashida
  | numTab | highKashida | lowKashida | thaiDistributed
  deriving DecidableEq, Repr

def ParagraphJustificationValues.toDisplay (v : ParagraphJustificationValues) : String :=
  match v with
  | .left => "left"
  | .center => "center"
  | .right => "right"
  | .both => "both"
  | .mediumKashida => "mediumKashida"
  | .distributedKashida => "distributedKashida"
  | .numTab => "numTab"
  | .highKashida => "highKashida"
  | .lowKashida => "lowKashida"
  | .thaiDistributed => "thaiDistributed"

/-- Modelled from the spec: the From String table for
ParagraphJustificationValues called by the decoder is not under src
(justification.rs only carries the Display direction); per section 9 the
wire mapping is the bidirectional table of the Display impl, with
unrecognized values falling back to the first variant. -/
def ParagraphJustificationValues.fromString (v : String) : ParagraphJustificationValues :=
  match v with
  | "left" => .left
  | "center" => .center
  | "right" => .right
  | "both" => .both
  | "mediumKashida" => .mediumKashida
  | "distributedKashida" => .distributedKashida
  | "numTab" => .numTab
  | "highKashida" => .highKashida
  | "lowKashida" => .lowKashida
  | "thaiDistributed" => .thaiDistributed
  | _ => .left

structure ParagraphJustification : Type where
  val : ParagraphJustificationValues
  deriving DecidableEq, Repr

def ParagraphJustification.new (v : ParagraphJustificationValues) :
    ParagraphJustification := ⟨v⟩

def ParagraphJustification.value (j : ParagraphJustification) : String :=
  j.val.toDisplay

inductive ParagraphTextDirValues : Type
  | lrTb | tbRlTbLr | btLr | tbLrTbRl | tbRl | lr | lrTbBidi
  deriving DecidableEq, Repr

def ParagraphTextDirValues.toDisplay (v : ParagraphTextDirValues) : String :=
  match v with
  | .lrTb => "lrTb"
  | .tbRlTbLr => "tbRlTbLr"
  | .btLr => "brLr"
  | .tbLrTbRl => "tbLrTbRl"
  | .tbRl => "tbRl"
  | .lr => "lr"
  | .lrTbBidi => "lrTbBidi"

/-- Modelled from the spec: the From String table for
ParagraphTextDirValues is not under src; inverse of the Display impl,
unrecognized values falling back to the first variant. -/
def ParagraphTextDirValues.fromString (v : String) : ParagraphTextDirValues :=
  match v with
  | "lrTb" => .lrTb
  | "tbRlTbLr" => .tbRlTbLr
  | "brLr" => .btLr
  | "tbLrTbRl" => .tbLrTbRl
  | "tbRl" => .tbRl
  | "lr" => .lr
  | "lrTbBidi" => .lrTbBidi
  | _ => .lrTb

structure ParagraphTextDir : Type where
  val : ParagraphTextDirValues
  deriving DecidableEq, Repr

def ParagraphTextDir.new (v : ParagraphTextDirValues) : ParagraphTextDir := ⟨v⟩

def ParagraphTextDir.value (d : ParagraphTextDir) : String := d.val.toDisplay

inductive ParagraphTextAlignValues : Type
  | top | center | baseline | bottom | auto
  deriving DecidableEq, Repr

def ParagraphTextAlignValues.toDisplay (v : ParagraphTextAlignValues) : String :=
  match v with
  | .top => "top"
  | .center => "center"
  | .baseline => "baseline"
  | .bottom => "bottom"
  | .auto => "auto"

/-- Modelled from the spec: the From String table for
ParagraphTextAlignValues is not under src; inverse of the Display impl,
unrecognized values falling back to the first variant. -/
def ParagraphTextAlignValues.fromString (v : String) : ParagraphTextAlignValues :=
  match v with
  | "top" => .top
  | "center" => .center
  | "baseline" => .baseline
  | "bottom" => .bottom
  | "auto" => .auto
  | _ => .top

structure ParagraphTextAlign : Type where
  val : ParagraphTextAlignValues
  deriving DecidableEq, Repr

def ParagraphTextAlign.new (v : ParagraphTextAlignValues) : ParagraphTextAlign := ⟨v⟩

def ParagraphTextAlign.value (a : ParagraphTextAlign) : String := a.val.toDisplay

inductive ParagraphTBoxTightWrapValues : Type
  | allLines | firstAndLastLine | firstLineOnly | lastLineOnly | noneValue
  deriving DecidableEq, Repr

def ParagraphTBoxTightWrapValues.fromString (v : String) : ParagraphTBoxTightWrapValues :=
  match v with
  | "allLines" => .allLines
  | "firstAndLastLine" => .firstAndLastLine
  | "firstLineOnly" => .firstLineOnly
  | "lastLineOnly" => .lastLineOnly
  | "none" => .noneValue
  | _ => .noneValue

def ParagraphTBoxTightWrapValues.toDisplay (v : ParagraphTBoxTightWrapValues) : String :=
  match v with
  | .allLines => "allLines"
  | .firstAndLastLine => "firstAndLastLine"
  | .firstLineOnly => "firstLineOnly"
  | .lastLineOnly => "lastLineOnly"
  | .noneValue => "none"

structure ParagraphTBoxTightWrap : Type where
  val : ParagraphTBoxTightWrapValues
  deriving DecidableEq, Repr

def ParagraphTBoxTightWrap.new (v : ParagraphTBoxTightWrapValues) :
    ParagraphTBoxTightWrap := ⟨v⟩

def ParagraphTBoxTightWrap.value (w : ParagraphTBoxTightWrap) : String :=
  w.val.toDisplay

/- Borders (elements/paragraph_properties/border.rs) -/

inductive ParagraphBorderStyle : Type
  | single | double | dashed | nil
  deriving DecidableEq, Repr

def ParagraphBorderStyle.fromString (v : String) : ParagraphBorderStyle :=
  match v with
  | "single" => .single
  | "double" => .double
  | "dashed" => .dashed
  | "nil" => .nil
  | _ => .nil

def ParagraphBorderStyle.toDisplay (v : ParagraphBorderStyle) : String :=
  match v with
  | .single => "single"
  | .double => "double"
  | .dashed => "dashed"
  | .nil => "nil"

structure ParagraphBorderSide : Type where
  val : ParagraphBorderStyle
  sz : Option Nat
  space : Option Nat
  color : Option HexColor
  deriving DecidableEq, Repr

def ParagraphBorderSide.default : ParagraphBorderSide :=
  { val := .single, sz := some 4, space := none
    color := some (HexColor.new "FFFFFF") }

structure ParagraphBorder : Type where
  top : Option ParagraphBorderSide
  bottom : Option ParagraphBorderSide
  left : Option ParagraphBorderSide
  right : Option ParagraphBorderSide
  between : Option ParagraphBorderSide
  deriving DecidableEq, Repr

def ParagraphBorder.default : ParagraphBorder :=
  { top := some .default, bottom := some .default, left := some .default
    right := some .default, between := none }

/- Shading (elements/paragraph_properties/shadow.rs and
elements/common/color.rs) -/

structure PercentFill : Type where
  fill : String
  deriving DecidableEq, Repr

inductive StripePatternValues : Type
  | horizontal | vertical | diagonal | reverseDiagonal | horizontalCross
  | diagonalCross | thinHorzontal | thinVertical | thinDiagonal
  | thinReverseDiagonal | thinHorizontalCross | thinDiagCross
  | smallGrid | largeGrid | dottedGrid | clear
  deriving DecidableEq, Repr

structure StripePattern : Type where
  pattern : StripePatternValues
  deriving DecidableEq, Repr

inductive ParagraphShadingValues : Type
  | clear
  | percentage (v : PercentFill)
  | pattern (v : StripePattern)
  | nil
  deriving DecidableEq, Repr

structure ParagraphShading : Type where
  val : ParagraphShadingValues
  fill : Option HexColor
  color : Option HexColor
  themeColor : Option String
  themeFill : Option String
  deriving DecidableEq, Repr

/- Spacing (elements/paragraph_properties/spacing.rs) -/

inductive LineRule : Type
  | auto | atLeast | exact
  deriving DecidableEq, Repr

structure ParagraphSpacing : Type where
  before : Option Nat
  after : Option Nat
  line : Option Nat
  line_rule : Option LineRule
  before_autospacing : Option Bool
  after_autospacing : Option Bool
  deriving DecidableEq, Repr

/- Numbering (elements/paragraph_properties/numbering.rs) -/

structure ParagraphNumberingProperties : Type where
  ilvl : Nat
  num_id : Nat
  ins : Option Unit
  numberingChange : Option Unit
  deriving DecidableEq, Repr

/- Tabs (elements/paragraph_properties/tabs.rs) -/

inductive ParagraphTabValues : Type
  | clear | left | center | right | decimal | bar | num
  deriving DecidableEq, Repr

def ParagraphTabValues.toDisplay (v : ParagraphTabValues) : String :=
  match v with
  | .clear => "clear"
  | .left => "left"
  | .center => "center"
  | .right => "right"
  | .decimal => "decimal"
  | .bar => "bar"
  | .num => "num"

inductive ParagraphTabLeaders : Type
  | noneLeader | dot | heavy | hyphen | middleDot
  deriving DecidableEq, Repr

def ParagraphTabLeaders.toDisplay (v : ParagraphTabLeaders) : String :=
  match v with
  | .noneLeader => "none"
  | .dot => "dot"
  | .heavy => "heavy"
  | .hyphen => "hyphen"
  | .middleDot => "middleDot"

structure ParagraphTab : Type where
  val : ParagraphTabValues
  pos : Int
  leader : Option ParagraphTabLeaders
  deriving DecidableEq, Repr

def ParagraphTab.value (t : ParagraphTab) : String := t.val.toDisplay

/- Indentation (elements/paragraph_properties/indentation.rs) -/

structure ParagraphIndentation : Type where
  left : Option Int
  left_chars : Option Int
  right : Option Int
  right_chars : Option Int
  first_line : Option Int
  first_line_chars : Option Int
  hanging : Option Int
  hanging_chars : Option Int
  deriving DecidableEq, Repr

def ParagraphIndentation.default : ParagraphIndentation :=
  { left := none, left_chars := none, right := none, right_chars := none
    first_line := none, first_line_chars := none, hanging := none
    hanging_chars := none }

/-- ParagraphIndentation::new: fails when hanging and first_line are both
set. -/
def ParagraphIndentation.new
    (left left_chars right right_chars first_line first_line_chars
      hanging hanging_chars : Option Int) :
    Except RudocxParagraphStyleError ParagraphIndentation :=
  if hanging.isSome ∧ first_line.isSome then
    .error (.mutuallyExclusive "hanging" "firstLine")
  else
    .ok { left, left_chars, right, right_chars, first_line
          first_line_chars, hanging, hanging_chars }

def ParagraphIndentation.change_left (p : ParagraphIndentation)
    (left : Option Int) : ParagraphIndentation := { p with left }

def ParagraphIndentation.change_first_line (p : ParagraphIndentation)
    (first_line : Option Int) : ParagraphIndentation := { p with first_line }

def ParagraphIndentation.change_hanging (p : ParagraphIndentation)
    (hanging : Option Int) : ParagraphIndentation := { p with hanging }

/- ### Property records -/

/-- RunProperties. Field list follows the struct of
elements/run_properties/mod.rs together with the strike, dstrike, valign
and spacing fields that xml/read.rs and xml/write.rs read and write (the
snapshot of the struct file under src predates those four fields; their
names and types are taken from the use sites and their defaults follow
the pattern of the others: false for flags, none for options). -/
structure RunProperties : Type where
  bold : Bool
  italic : Bool
  underline : Option Underline
  color : Option HexColor
  size : Option Nat
  font : Option FontSet
  highlight : Option HLColor
  strike : Bool
  dstrike : Bool
  valign : Option VerticalAlign
  spacing : Option Nat
  deriving DecidableEq, Repr

def RunProperties.default : RunProperties :=
  { bold := false, italic := false, underline := none, color := none
    size := none, font := none, highlight := none, strike := false
    dstrike := false, valign := none, spacing := none }

/-- has_formatting of RunProperties (elements/run_properties/mod.rs lines
70 to 73): the body compares self with the default by equality. -/
def RunProperties.has_formatting (p : RunProperties) : Bool :=
  p = RunProperties.default

/-- ParagraphProperties (elements/paragraph_properties/mod.rs). -/
structure ParagraphProperties : Type where
  keep_next : Bool
  keep_lines : Bool
  page_break_before : Bool
  window_control : Bool
  suppress_line_numbers : Bool
  paragraph_borders : Option ParagraphBorder
  shading : Option ParagraphShading
  tabs : Option (List ParagraphTab)
  numbering_properties : Option ParagraphNumberingProperties
  suppress_auto_hyphens : Bool
  word_wrap : Bool
  topline_punct : Bool
  autospace_de : Bool
  autospace_dn : Bool
  bidi : Bool
  snap_to_grid : Bool
  spacing : Option ParagraphSpacing
  ind : Option ParagraphIndentation
  contextual_spacing : Bool
  mirror_indents : Bool
  suppress_overlap : Bool
  jc : Option ParagraphJustification
  text_direction : Option ParagraphTextDir
  text_alignment : Option ParagraphTextAlign
  textbox_tight_wrap : Option ParagraphTBoxTightWrap
  outline_level : Option Nat
  default_run_properties : Option RunProperties
  deriving DecidableEq, Repr

def ParagraphProperties.default : ParagraphProperties :=
  { keep_next := false, keep_lines := false, page_break_before := false
    window_control := false, suppress_line_numbers := false
    paragraph_borders := none, shading := none, tabs := none
    numbering_properties := none, suppress_auto_hyphens := false
    word_wrap := false, topline_punct := false, autospace_de := false
    autospace_dn := false, bidi := false, snap_to_grid := false
    spacing := none, ind := none, contextual_spacing := false
    mirror_indents := false, suppress_overlap := false, jc := none
    text_direction := none, text_alignment := none
    textbox_tight_wrap := none, outline_level := none
    default_run_properties := none }

/-- has_formatting of ParagraphProperties
(elements/paragraph_properties/mod.rs lines 100 to 103): the body
compares self with the default by inequality. -/
def ParagraphProperties.has_formatting (p : ParagraphProperties) : Bool :=
  p ≠ ParagraphProperties.default

/- ### Document model (elements/run.rs, paragraph.rs, hyperlink.rs,
document.rs) -/

structure Run : Type where
  properties : RunProperties
  text : String
  space_preserve : Bool
  deriving DecidableEq, Repr

def Run.default : Run :=
  { properties := RunProperties.default, text := "", space_preserve := false }

structure Hyperlink : Type where
  id : String
  runs : List Run
  deriving DecidableEq, Repr

def Hyperlink.default : Hyperlink := { id := "", runs := [] }

inductive ParagraphChild : Type
  | run (r : Run)
  | hyperlink (h : Hyperlink)
  deriving DecidableEq, Repr

structure Paragraph : Type where
  properties : ParagraphProperties
  children : List ParagraphChild
  deriving DecidableEq, Repr

def Paragraph.default : Paragraph :=
  { properties := ParagraphProperties.default, children := [] }

/- ### Relationship registry (rels/mod.rs) -/

/-- String printed by the format macro for rId concatenation: the three
characters rId followed by the decimal digits of n. -/
def ridString (n : Nat) : String := ⟨'r' :: 'I' :: 'd' :: natChars n⟩

/-- Composition of strip_prefix with rId and str::parse for u32, as in
add_relationship: when the string starts with the three characters rId,
parse the remainder as a u32. -/
def parseRId (s : String) : Option Nat :=
  match s.data with
  | c1 :: c2 :: c3 :: rest =>
    if c1 = 'r' ∧ c2 = 'I' ∧ c3 = 'd' then rustParseUnsignedCore 32 rest
    else none
  | _ => none

/-- HashMap insert: replace the value when the key is present, otherwise
record a new binding (association-list model of the unordered map). -/
def insertLink (links : List (String × String)) (k v : String) :
    List (String × String) :=
  if (links.lookup k).isSome then
    links.map (fun p => if p.1 = k then (k, v) else p)
  else
    links ++ [(k, v)]

/-- RelationshipManager: counter is a u32 (kept as a Nat below 2 to the
32, with wrapping increment), links is the id-to-target map. -/
structure RelationshipManager : Type where
  counter : Nat
  links : List (String × String)
  deriving DecidableEq, Repr

def RelationshipManager.new : RelationshipManager :=
  { counter := 0, links := [] }

/-- generate_rid: increment the counter (u32 wrapping), produce the rId
string, record it against the target, return it. -/
def RelationshipManager.generate_rid (m : RelationshipManager)
    (target : String) : String × RelationshipManager :=
  let c := (m.counter + 1) % 2 ^ 32
  let rid := ridString c
  (rid, { counter := c, links := insertLink m.links rid target })

def RelationshipManager.get_links (m : RelationshipManager) :
    List (String × String) := m.links

/-- add_relationship: seed the counter from ids of the rId-number shape,
then record the binding. -/
def RelationshipManager.add_relationship (m : RelationshipManager)
    (id target : String) : RelationshipManager :=
  let c := match parseRId id with
    | some num => max m.counter num
    | none => m.counter
  { counter := c, links := insertLink m.links id target }

/-- Sequence of add_relationship calls, first call first. -/
def addAll (m : RelationshipManager) (adds : List (String × String)) :
    RelationshipManager :=
  adds.foldl (fun m p => m.add_relationship p.1 p.2) m

/-- Sequence of generate_rid calls, one per target, returning the ids in
call order together with the final registry. -/
def genAll (m : RelationshipManager) : List String → List String × RelationshipManager
  | [] => ([], m)
  | t :: ts =>
    let g := m.generate_rid t
    let rest := genAll g.2 ts
    (g.1 :: rest.1, rest.2)

structure Document : Type where
  paragraphs : List Paragraph
  relationship_manager : RelationshipManager
  deriving DecidableEq, Repr

def Document.default : Document :=
  { paragraphs := [], relationship_manager := RelationshipManager.new }

/- ### Decoder (xml/read.rs)

The decoder consumes the flat event stream of the XML reader: start tag
with attributes, self-closing tag with attributes, text (already
unescaped), end tag, end of input (implicit at the end of the event
list). The handlers below mirror the four handler functions of
xml/read.rs case by case; handle_open_tag, handle_text, handle_close_tag
and handle_eof return Ok on every path in the source, so they are
embedded as plain functions, while handle_empty_tag can surface a
numeric-parse error through the question-mark operator and returns
Except. -/

inductive XmlEvent : Type
  | start (tag : String) (attrs : List (String × String))
  | empty (tag : String) (attrs : List (String × String))
  | text (s : String)
  | close (tag : String)
  deriving DecidableEq, Repr

/-- CurrentData (xml/read.rs lines 8 to 17). -/
structure CurrentData : Type where
  document : Document
  paragraph : Option Paragraph
  paragraph_properties : Option ParagraphProperties
  in_paragraph_properties : Bool
  hyperlink : Option Hyperlink
  run : Option Run
  run_properties : Option RunProperties
  in_run_properties : Bool
  deriving DecidableEq, Repr

def CurrentData.new : CurrentData :=
  { document := Document.default, paragraph := none
    paragraph_properties := none, in_paragraph_properties := false
    hyperlink := none, run := none, run_properties := none
    in_run_properties := false }

/-- Shared shape of the run-property tag bodies: inside run-properties
scope with a live run-properties record, apply the update; otherwise do
nothing. -/
def updRP (d : CurrentData) (f : RunProperties → RunProperties) : CurrentData :=
  if d.in_run_properties then
    match d.run_properties with
    | some p => { d with run_properties := some (f p) }
    | none => d
  else d

/-- Shared shape of the paragraph-property tag bodies. -/
def updPP (d : CurrentData) (f : ParagraphProperties → ParagraphProperties) :
    CurrentData :=
  if d.in_paragraph_properties then
    match d.paragraph_properties with
    | some p => { d with paragraph_properties := some (f p) }
    | none => d
  else d

/-- Shared shape of the boolean paragraph-property tags (keepNext and
friends): an explicit off, 0 or false value leaves the flag alone, any
other value or a missing value attribute sets it. -/
def boolTagPP (attrs : List (String × String)) (d : CurrentData)
    (setter : ParagraphProperties → ParagraphProperties) : CurrentData :=
  updPP d (fun p =>
    match attrVal attrs "w:val" with
    | some v => if v = "off" ∨ v = "0" ∨ v = "false" then p else setter p
    | none => setter p)

/-- Font mutation shape of the rFonts handler: clone the present font set
or start from the default, apply the field update, store it back. -/
def withFont (p : RunProperties) (f : FontSet → FontSet) : RunProperties :=
  { p with font := some (f (p.font.getD FontSet.default)) }

/-- One iteration of the attribute loop of the rFonts case. -/
def rFontsStep (p : RunProperties) (a : String × String) : RunProperties :=
  match a.1 with
  | "w:hint" => withFont p (fun fs => { fs with hint := FontType.fromString a.2 })
  | "w:ascii" => withFont p (fun fs => { fs with ascii := some a.2 })
  | "w:hiAnsi" => withFont p (fun fs => { fs with hi_ansi := some a.2 })
  | "w:eastAsia" => withFont p (fun fs => { fs with east_asia := some a.2 })
  | "w:cs" => withFont p (fun fs => { fs with cs := some a.2 })
  | "w:asciiTheme" => withFont p (fun fs => { fs with ascii_theme := some a.2 })
  | "w:hiAnsiTheme" => withFont p (fun fs => { fs with hi_ansi_theme := some a.2 })
  | "w:eastAsiaTheme" => withFont p (fun fs => { fs with east_asia_theme := some a.2 })
  | "w:csTheme" => withFont p (fun fs => { fs with cs_theme := some a.2 })
  | _ => p

/-- handle_open_tag (xml/read.rs lines 87 to 169). -/
def handleOpenTag (tag : String) (attrs : List (String × String))
    (d : CurrentData) : CurrentData :=
  match tag with
  | "w:t" => d
  | "w:rPr" =>
    if d.in_paragraph_properties then
      match d.paragraph_properties with
      | some pp =>
        { d with
          paragraph_properties :=
            some ({ pp with default_run_properties := some RunProperties.default }) }
      | none => d
    else
      { d with in_run_properties := true }
  | "w:p" =>
    let doc :=
      match d.paragraph with
      | some p => { d.document with paragraphs := d.document.paragraphs ++ [p] }
      | none => d.document
    { d with document := doc
             paragraph_properties := some ParagraphProperties.default
             paragraph := some Paragraph.default }
  | "w:pPr" => { d with in_paragraph_properties := true }
  | "w:hyperlink" =>
    let d1 :=
      match d.run with
      | some r =>
        match d.paragraph with
        | some p =>
          { d with run := none
                   paragraph := some ({ p with children := p.children ++ [ParagraphChild.run r] }) }
        | none => { d with run := none }
      | none => d
    let link :=
      match attrVal attrs "r:id" with
      | some v => { Hyperlink.default with id := v }
      | none => Hyperlink.default
    { d1 with hyperlink := some link }
  | "w:r" =>
    let d1 :=
      match d.hyperlink with
      | some h =>
        match d.run with
        | some r => { d with run := none, hyperlink := some ({ h with runs := h.runs ++ [r] }) }
        | none => d
      | none =>
        match d.run with
        | some r =>
          match d.paragraph with
          | some p =>
            { d with run := none
                     paragraph := some ({ p with children := p.children ++ [ParagraphChild.run r] }) }
          | none => { d with run := none }
        | none => d
    { d1 with run_properties := some RunProperties.default, run := some Run.default }
  | "w:pBdr" =>
    match d.paragraph_properties with
    | some pp =>
      { d with
        paragraph_properties :=
          some ({ pp with paragraph_borders := some ParagraphBorder.default }) }
    | none => d
  | _ => d

/-- handle_text (xml/read.rs lines 77 to 82): append to the open run,
drop the text when no run is open. -/
def handleText (d : CurrentData) (text : String) : CurrentData :=
  match d.run with
  | some r => { d with run := some ({ r with text := r.text ++ text }) }
  | none => d

/-- handle_empty_tag (xml/read.rs lines 173 to 916). Only the size and
character-spacing cases can fail (question-mark on str::parse); every
other case returns Ok. -/
def handleEmptyTag (tag : String) (attrs : List (String × String))
    (d : CurrentData) : Except RudocxError CurrentData :=
  match tag with
  | "w:b" =>
    let d1 := updRP d (fun p => { p with bold := true })
    .ok (updPP d1 (fun pp =>
      match pp.default_run_properties with
      | some p => { pp with default_run_properties := some ({ p with bold := true }) }
      | none => pp))
  | "w:i" => .ok (updRP d (fun p => { p with italic := true }))
  | "w:u" =>
    .ok (updRP d (fun p =>
      match attrVal attrs "w:val" with
      | some v => { p with underline := some (Underline.new (UnderlineStyle.fromString v)) }
      | none => p))
  | "w:color" =>
    .ok (updRP d (fun p =>
      match attrVal attrs "w:val" with
      | some v => { p with color := some (HexColor.new v) }
      | none => p))
  | "w:sz" =>
    if d.in_run_properties then
      match d.run_properties with
      | some p =>
        match attrVal attrs "w:val" with
        | some v =>
          match rustParseU32 v with
          | some n => .ok { d with run_properties := some ({ p with size := some n }) }
          | none => .error (.numParseError v)
        | none => .ok d
      | none => .ok d
    else .ok d
  | "w:rFonts" =>
    .ok (if d.in_run_properties then
      match d.run_properties with
      | some p => { d with run_properties := some (attrs.foldl rFontsStep p) }
      | none => d
    else d)
  | "w:highlight" =>
    .ok (updRP d (fun p =>
      match attrVal attrs "w:val" with
      | some v => { p with highlight := some (HLColor.new (HighlightPalette.fromString v)) }
      | none => p))
  | "w:strike" => .ok (updRP d (fun p => { p with strike := true }))
  | "w:dstrike" => .ok (updRP d (fun p => { p with dstrike := true }))
  | "w:valign" =>
    .ok (updRP d (fun p =>
      match attrVal attrs "w:val" with
      | some v => { p with valign := some (VerticalAlign.new (AlignValues.fromString v)) }
      | none => p))
  | "w:spacing" =>
    if d.in_run_properties then
      match d.run_properties with
      | some p =>
        match attrVal attrs "w:val" with
        | some v =>
          match rustParseU32 v with
          | some n => .ok { d with run_properties := some ({ p with spacing := some n }) }
          | none => .error (.numParseError v)
        | none => .ok d
      | none => .ok d
    else .ok d
  | "w:keepNext" => .ok (boolTagPP attrs d (fun p => { p with keep_next := true }))
  | "w:keepLines" => .ok (boolTagPP attrs d (fun p => { p with keep_lines := true }))
  | "w:pageBreakBefore" =>
    .ok (boolTagPP attrs d (fun p => { p with page_break_before := true }))
  | "w:windowControl" =>
    .ok (boolTagPP attrs d (fun p => { p with window_control := true }))
  | "w:suppressLineNumbers" =>
    .ok (boolTagPP attrs d (fun p => { p with suppress_line_numbers := true }))
  | "w:suppressAutoHyphens" =>
    .ok (boolTagPP attrs d (fun p => { p with suppress_auto_hyphens := true }))
  | "w:wordWrap" => .ok (boolTagPP attrs d (fun p => { p with word_wrap := true }))
  | "w:toplinePunct" =>
    .ok (boolTagPP attrs d (fun p => { p with topline_punct := true }))
  | "w:autoSpaceDE" =>
    .ok (boolTagPP attrs d (fun p => { p with autospace_de := true }))
  | "w:autoSpaceDN" =>
    .ok (boolTagPP attrs d (fun p => { p with autospace_dn := true }))
  | "w:bidi" => .ok (boolTagPP attrs d (fun p => { p with bidi := true }))
  | "w:snapToGrid" =>
    .ok (boolTagPP attrs d (fun p => { p with snap_to_grid := true }))
  | "w:contextualSpacing" =>
    .ok (boolTagPP attrs d (fun p => { p with contextual_spacing := true }))
  | "w:mirrorIndents" =>
    .ok (boolTagPP attrs d (fun p => { p with mirror_indents := true }))
  | "w:suppressOverlap" =>
    .ok (boolTagPP attrs d (fun p => { p with suppress_overlap := true }))
  | "w:jc" =>
    .ok (updPP d (fun p =>
      match attrVal attrs "w:val" with
      | some v =>
        { p with jc := some (ParagraphJustification.new (ParagraphJustificationValues.fromString v)) }
      | none => p))
  | "w:textDirection" | "w:textFlow" =>
    .ok (updPP d (fun p =>
      match attrVal attrs "w:val" with
      | some v =>
        { p with text_direction := some (ParagraphTextDir.new (ParagraphTextDirValues.fromString v)) }
      | none => p))
  | "w:textAlignment" =>
    .ok (updPP d (fun p =>
      match attrVal attrs "w:val" with
      | some v =>
        { p with text_alignment := some (ParagraphTextAlign.new (ParagraphTextAlignValues.fromString v)) }
      | none => p))
  | "w:textboxTightWrap" =>
    .ok (updPP d (fun p =>
      match attrVal attrs "w:val" with
      | some v =>
        { p with textbox_tight_wrap := some (ParagraphTBoxTightWrap.new (ParagraphTBoxTightWrapValues.fromString v)) }
      | none => p))
  | "w:outlineLvl" =>
    .ok (updPP d (fun p =>
      match attrVal attrs "w:val" with
      | some v => { p with outline_level := some ((rustParseU8 v).getD 0) }
      | none => p))
  | "w:ind" =>
    .ok (updPP d (fun p =>
      let f0 := attrFind attrs "w:left"
      let pi1 := match f0.1 with
        | some v => { ParagraphIndentation.default with left := some ((rustParseI32 v).getD 0) }
        | none => ParagraphIndentation.default
      let f1 := attrFind f0.2 "w:leftChars"
      let pi2 := match f1.1 with
        | some v => { pi1 with left_chars := some ((rustParseI32 v).getD 0) }
        | none => pi1
      let f2 := attrFind f1.2 "w:right"
      let pi3 := match f2.1 with
        | some v => { pi2 with right := some ((rustParseI32 v).getD 0) }
        | none => pi2
      let f3 := attrFind f2.2 "w:rightChars"
      let pi4 := match f3.1 with
        | some v => { pi3 with left := some ((rustParseI32 v).getD 0) }
        | none => pi3
      let f4 := attrFind f3.2 "w:hanging"
      let pi5 := match f4.1 with
        | some v => { pi4 with hanging := some ((rustParseI32 v).getD 0) }
        | none => pi4
      let f5 := attrFind f4.2 "w:hangingChars"
      let pi6 := match f5.1 with
        | some v => { pi5 with hanging_chars := some ((rustParseI32 v).getD 0) }
        | none => pi5
      let f6 := attrFind f5.2 "w:firstLine"
      let pi7 := match f6.1 with
        | some v => { pi6 with first_line := some ((rustParseI32 v).getD 0) }
        | none => pi6
      let f7 := attrFind f6.2 "w:firstLineChars"
      let pi8 := match f7.1 with
        | some v => { pi7 with first_line_chars := some ((rustParseI32 v).getD 0) }
        | none => pi7
      { p with ind := some pi8 }))
  | "w:top" | "w:left" | "w:bottom" | "w:right" | "w:between" =>
    .ok (updPP d (fun pp =>
      match pp.paragraph_borders with
      | some pb =>
        let f0 := attrFind attrs "w:val"
        let s1 := match f0.1 with
          | some v => { ParagraphBorderSide.default with val := ParagraphBorderStyle.fromString v }
          | none => ParagraphBorderSide.default
        let f1 := attrFind f0.2 "w:sz"
        let s2 := match f1.1 with
          | some v => { s1 with sz := some ((rustParseU8 v).getD 0) }
          | none => s1
        let f2 := attrFind f1.2 "w:space"
        let s3 := match f2.1 with
          | some v => { s2 with space := some ((rustParseU8 v).getD 0) }
          | none => s2
        let f3 := attrFind f2.2 "w:color"
        let s4 := match f3.1 with
          | some v => { s3 with color := some (HexColor.new v) }
          | none => s3
        { pp with paragraph_borders := some ({ pb with top := some s4 }) }
      | none => pp))
  | _ => .ok d

/-- handle_close_tag (xml/read.rs lines 920 to 989). -/
def handleCloseTag (tag : String) (d : CurrentData) : CurrentData :=
  match tag with
  | "w:t" => d
  | "w:rPr" =>
    if d.in_paragraph_properties then d
    else { d with in_run_properties := false }
  | "w:p" =>
    match d.paragraph with
    | some p =>
      match d.hyperlink with
      | some h =>
        let h1 := match d.run with
          | some r => { h with runs := h.runs ++ [r] }
          | none => h
        { d with paragraph := none, hyperlink := none, run := none
                 document := { d.document with paragraphs :=
                   d.document.paragraphs ++ [{ p with children := p.children ++ [ParagraphChild.hyperlink h1] }] } }
      | none =>
        match d.run with
        | some r =>
          { d with paragraph := none, run := none
                   document := { d.document with paragraphs :=
                     d.document.paragraphs ++ [{ p with children := p.children ++ [ParagraphChild.run r] }] } }
        | none =>
          { d with paragraph := none
                   document := { d.document with paragraphs := d.document.paragraphs ++ [p] } }
    | none => { d with paragraph := none }
  | "w:hyperlink" =>
    match d.hyperlink with
    | some h =>
      match d.run with
      | some r =>
        let r1 := match d.run_properties with
          | some rp => { r with properties := rp }
          | none => r
        match d.paragraph with
        | some p =>
          { d with run := none, run_properties := none, hyperlink := none
                   paragraph := some ({ p with children :=
                     p.children ++ [ParagraphChild.hyperlink { h with runs := h.runs ++ [r1] }] }) }
        | none => { d with run := none, run_properties := none, hyperlink := none }
      | none =>
        match d.paragraph with
        | some p =>
          { d with hyperlink := none
                   paragraph := some ({ p with children := p.children ++ [ParagraphChild.hyperlink h] }) }
        | none => { d with hyperlink := none }
    | none => { d with hyperlink := none }
  | "w:r" =>
    match d.run with
    | some r =>
      let r1 := match d.run_properties with
        | some rp => { r with properties := rp }
        | none => r
      match d.hyperlink with
      | some h =>
        { d with run := none, run_properties := none
                 hyperlink := some ({ h with runs := h.runs ++ [r1] }) }
      | none =>
        match d.paragraph with
        | some p =>
          { d with run := none, run_properties := none
                   paragraph := some ({ p with children := p.children ++ [ParagraphChild.run r1] }) }
        | none => { d with run := none, run_properties := none }
    | none => { d with run := none }
  | _ => d

/-- handle_eof (xml/read.rs lines 993 to 1013). The hyperlink branch of
the source re-takes the paragraph option that the enclosing branch has
already taken, so its body never runs: a hyperlink still open at end of
input is dropped, and the pending run (when present) is attached to the
paragraph as a bare run without its accumulated run properties. -/
def handleEof (d : CurrentData) : CurrentData :=
  match d.paragraph with
  | some p =>
    match d.run with
    | some r =>
      { d with paragraph := none, hyperlink := none, run := none
               document := { d.document with paragraphs :=
                 d.document.paragraphs ++ [{ p with children := p.children ++ [ParagraphChild.run r] }] } }
    | none =>
      { d with paragraph := none, hyperlink := none
               document := { d.document with paragraphs := d.document.paragraphs ++ [p] } }
  | none => d

/-- One turn of the read_event loop of parse_ooxml. -/
def stepEvent (d : CurrentData) (e : XmlEvent) : Except RudocxError CurrentData :=
  match e with
  | .start tag attrs => .ok (handleOpenTag tag attrs d)
  | .empty tag attrs => handleEmptyTag tag attrs d
  | .text s => .ok (handleText d s)
  | .close tag => .ok (handleCloseTag tag d)

/-- Event loop of parse_ooxml: handlers over the events, then handle_eof
at end of input. -/
def runEvents (d : CurrentData) : List XmlEvent → Except RudocxError CurrentData
  | [] => .ok (handleEof d)
  | e :: rest =>
    match stepEvent d e with
    | .ok d1 => runEvents d1 rest
    | .error err => .error err

/-- parse (xml/read.rs line 34): decode an event stream into a Document. -/
def parse (evs : List XmlEvent) : Except RudocxError Document :=
  (runEvents CurrentData.new evs).map (fun d => d.document)

/- ### Encoder (xml/write.rs)

The writer walks the document and emits elements through the XML
library; the embedding produces the corresponding event list. Element
names follow the XmlWElement string table: that table lives in the root
of the xml module, which is not under src, so the names are modelled
from the markup vocabulary of the spec (section 6) and the decoder tag
names; per the open question of section 9, the writer name for vertical
alignment (w:vertAlign, the schema name) differs from the tag the
decoder matches (w:valign). -/

def StripePatternValues.toDisplay (v : StripePatternValues) : String :=
  match v with
  | .horizontal => "horzStripe"
  | .vertical => "vertStripe"
  | .diagonal => "diagStripe"
  | .reverseDiagonal => "reverseDiagStripe"
  | .horizontalCross => "horzCrossStripe"
  | .diagonalCross => "diagCrossStripe"
  | .thinHorzontal => "thinHorzontalStripe"
  | .thinVertical => "thinVertStripe"
  | .thinDiagonal => "thinDiagStripe"
  | .thinReverseDiagonal => "thinReverseDiagStripe"
  | .thinHorizontalCross => "thinHorzCrossStripe"
  | .thinDiagCross => "thinDiagCrossStripe"
  | .smallGrid => "smGrid"
  | .largeGrid => "lgGrid"
  | .dottedGrid => "dotGrid"
  | .clear => "clear"

def ParagraphShadingValues.toDisplay (v : ParagraphShadingValues) : String :=
  match v with
  | .clear => "clear"
  | .percentage p => p.fill
  | .pattern p => p.pattern.toDisplay
  | .nil => "nil"

/-- Value accessor the writer calls on a shading record (the method body
is in the part of shadow.rs not under src; it renders the val field by
its Display impl). -/
def ParagraphShading.value (s : ParagraphShading) : String := s.val.toDisplay

def LineRule.toDisplay (v : LineRule) : String :=
  match v with
  | .auto => "auto"
  | .atLeast => "atLeast"
  | .exact => "exact"

/-- Attribute list of one border side element (write_paragraph_properties:
val first, then the optional color, sz and space). -/
def borderSideAttrs (side : ParagraphBorderSide) : List (String × String) :=
  [("w:val", side.val.toDisplay)]
    ++ (match side.color with | some c => [("w:color", c.val)] | none => [])
    ++ (match side.sz with | some n => [("w:sz", natToString n)] | none => [])
    ++ (match side.space with | some n => [("w:space", natToString n)] | none => [])

/-- Events of write_run_properties (xml/write.rs lines 516 to 603). -/
def writeRunProperties (p : RunProperties) : List XmlEvent :=
  [.start "w:rPr" []]
    ++ (if p.bold then [.empty "w:b" []] else [])
    ++ (if p.italic then [.empty "w:i" []] else [])
    ++ (if p.strike then [.empty "w:strike" []] else [])
    ++ (if p.dstrike then [.empty "w:dstrike" []] else [])
    ++ (match p.underline with
        | some u => [.empty "w:u" [("w:val", u.val)]]
        | none => [])
    ++ (match p.color with
        | some c => [.empty "w:color" [("w:val", c.val)]]
        | none => [])
    ++ (match p.size with
        | some n => [.empty "w:sz" [("w:val", natToString n)]]
        | none => [])
    ++ (match p.font with
        | some fs =>
          match fs.get_hint_value with
          | .defaultHint => []
          | t =>
            match fs.get_hint with
            | .ok v => [.empty "w:rFonts" [("w:" ++ t.toDisplay, v)]]
            | .error _ => []
        | none => [])
    ++ (match p.highlight with
        | some h => [.empty "w:highlight" [("w:val", h.val)]]
        | none => [])
    ++ (match p.valign with
        | some v => [.empty "w:vertAlign" [("w:val", v.val)]]
        | none => [])
    ++ (match p.spacing with
        | some n => [.empty "w:spacing" [("w:val", natToString n)]]
        | none => [])
    ++ [.close "w:rPr"]

/-- Events of write_paragraph_properties (xml/write.rs lines 149 to 476).
The boolean flags come first in source order; borders are emitted side
by side without a pBdr wrapper; the outline level is written under the
textboxTightWrap element name, as in the source (line 462). -/
/- Events of write_paragraph_properties (xml/write.rs lines 149 to 476),
split by property group in source order. The boolean flags come first;
borders are emitted side by side without a pBdr wrapper; the outline
level is written under the textboxTightWrap element name, as in the
source (line 462). -/

def ppFlagsEvents (p : ParagraphProperties) : List XmlEvent :=
  (if p.keep_next then [XmlEvent.empty "w:keepNext" []] else [])
    ++ (if p.keep_lines then [XmlEvent.empty "w:keepLines" []] else [])
    ++ (if p.page_break_before then [XmlEvent.empty "w:pageBreakBefore" []] else [])
    ++ (if p.window_control then [XmlEvent.empty "w:windowControl" []] else [])
    ++ (if p.suppress_line_numbers then [XmlEvent.empty "w:suppressLineNumbers" []] else [])
    ++ (if p.suppress_auto_hyphens then [XmlEvent.empty "w:suppressAutoHyphens" []] else [])
    ++ (if p.word_wrap then [XmlEvent.empty "w:wordWrap" []] else [])
    ++ (if p.topline_punct then [XmlEvent.empty "w:toplinePunct" []] else [])
    ++ (if p.autospace_de then [XmlEvent.empty "w:autoSpaceDE" []] else [])
    ++ (if p.autospace_dn then [XmlEvent.empty "w:autoSpaceDN" []] else [])
    ++ (if p.bidi then [XmlEvent.empty "w:bidi" []] else [])
    ++ (if p.snap_to_grid then [XmlEvent.empty "w:snapToGrid" []] else [])
    ++ (if p.contextual_spacing then [XmlEvent.empty "w:contextualSpacing" []] else [])
    ++ (if p.mirror_indents then [XmlEvent.empty "w:mirrorIndents" []] else [])
    ++ (if p.suppress_overlap then [XmlEvent.empty "w:suppressOverlap" []] else [])

def ppBordersEvents (p : ParagraphProperties) : List XmlEvent :=
  match p.paragraph_borders with
  | some pb =>
    (match pb.top with | some s => [XmlEvent.empty "w:top" (borderSideAttrs s)] | none => [])
      ++ (match pb.bottom with | some s => [XmlEvent.empty "w:bottom" (borderSideAttrs s)] | none => [])
      ++ (match pb.left with | some s => [XmlEvent.empty "w:left" (borderSideAttrs s)] | none => [])
      ++ (match pb.right with | some s => [XmlEvent.empty "w:right" (borderSideAttrs s)] | none => [])
      ++ (match pb.between with | some s => [XmlEvent.empty "w:between" (borderSideAttrs s)] | none => [])
  | none => []

def ppShadingEvents (p : ParagraphProperties) : List XmlEvent :=
  match p.shading with
  | some sh =>
    let a1 : List (String × String) :=
      match sh.color with | some c => [("w:color", c.val)] | none => []
    let a2 : List (String × String) :=
      match sh.fill with | some c => [("w:fill", c.val)] | none => []
    [XmlEvent.empty "w:shd" ([("w:val", sh.value)] ++ a1 ++ a2)]
  | none => []

def ppTabsEvents (p : ParagraphProperties) : List XmlEvent :=
  match p.tabs with
  | some tabs =>
    [XmlEvent.start "w:tabs" []]
      ++ tabs.map (fun t =>
        let lead : List (String × String) :=
          match t.leader with
          | some l => [("w:leader", l.toDisplay)]
          | none => []
        XmlEvent.empty "w:tab"
          ([("w:val", t.value), ("w:pos", intToString t.pos)] ++ lead))
      ++ [XmlEvent.close "w:tabs"]
  | none => []

def ppNumberingEvents (p : ParagraphProperties) : List XmlEvent :=
  match p.numbering_properties with
  | some np =>
    [XmlEvent.start "w:numPr" [],
     XmlEvent.empty "w:ilvl" [("w:val", natToString np.ilvl)],
     XmlEvent.empty "w:numId" [("w:val", natToString np.num_id)],
     XmlEvent.close "w:numPr"]
  | none => []

def ppSpacingEvents (p : ParagraphProperties) : List XmlEvent :=
  match p.spacing with
  | some sp =>
    let a1 : List (String × String) :=
      match sp.before with | some n => [("w:before", natToString n)] | none => []
    let a2 : List (String × String) :=
      match sp.after with | some n => [("w:after", natToString n)] | none => []
    let a3 : List (String × String) :=
      match sp.before_autospacing with | some b => [("w:beforeAutospacing", boolToString b)] | none => []
    let a4 : List (String × String) :=
      match sp.after_autospacing with | some b => [("w:afterAutospacing", boolToString b)] | none => []
    let a5 : List (String × String) :=
      match sp.line with | some n => [("w:line", natToString n)] | none => []
    let a6 : List (String × String) :=
      match sp.line_rule with | some r => [("w:lineRule", r.toDisplay)] | none => []
    [XmlEvent.empty "w:spacing" (a1 ++ a2 ++ a3 ++ a4 ++ a5 ++ a6)]
  | none => []

def ppIndEvents (p : ParagraphProperties) : List XmlEvent :=
  match p.ind with
  | some ind =>
    let a1 : List (String × String) :=
      match ind.first_line with | some n => [("w:firstLine", intToString n)] | none => []
    let a2 : List (String × String) :=
      match ind.first_line_chars with | some n => [("w:firstLineChars", intToString n)] | none => []
    let a3 : List (String × String) :=
      match ind.right with | some n => [("w:right", intToString n)] | none => []
    let a4 : List (String × String) :=
      match ind.right_chars with | some n => [("w:rightChars", intToString n)] | none => []
    let a5 : List (String × String) :=
      match ind.left with | some n => [("w:left", intToString n)] | none => []
    let a6 : List (String × String) :=
      match ind.left_chars with | some n => [("w:leftChars", intToString n)] | none => []
    let a7 : List (String × String) :=
      match ind.hanging with | some n => [("w:hanging", intToString n)] | none => []
    let a8 : List (String × String) :=
      match ind.hanging_chars with | some n => [("w:hangingChars", intToString n)] | none => []
    [XmlEvent.empty "w:ind" (a1 ++ a2 ++ a3 ++ a4 ++ a5 ++ a6 ++ a7 ++ a8)]
  | none => []

def ppJcEvents (p : ParagraphProperties) : List XmlEvent :=
  match p.jc with
  | some j => [XmlEvent.empty "w:jc" [("w:val", j.value)]]
  | none => []

def ppTextDirectionEvents (p : ParagraphProperties) : List XmlEvent :=
  match p.text_direction with
  | some td => [XmlEvent.empty "w:textDirection" [("w:val", td.value)]]
  | none => []

def ppTextAlignmentEvents (p : ParagraphProperties) : List XmlEvent :=
  match p.text_alignment with
  | some ta => [XmlEvent.empty "w:textAlignment" [("w:val", ta.value)]]
  | none => []

def ppTightWrapEvents (p : ParagraphProperties) : List XmlEvent :=
  match p.textbox_tight_wrap with
  | some tw => [XmlEvent.empty "w:textboxTightWrap" [("w:val", tw.value)]]
  | none => []

def ppOutlineEvents (p : ParagraphProperties) : List XmlEvent :=
  match p.outline_level with
  | some n => [XmlEvent.empty "w:textboxTightWrap" [("w:val", natToString n)]]
  | none => []

def ppDefaultRunPropertiesEvents (p : ParagraphProperties) : List XmlEvent :=
  match p.default_run_properties with
  | some rp => writeRunProperties rp
  | none => []

def writeParagraphProperties (p : ParagraphProperties) : List XmlEvent :=
  [XmlEvent.start "w:pPr" []] ++ ppFlagsEvents p ++ ppBordersEvents p
    ++ ppShadingEvents p ++ ppTabsEvents p ++ ppNumberingEvents p
    ++ ppSpacingEvents p ++ ppIndEvents p ++ ppJcEvents p
    ++ ppTextDirectionEvents p ++ ppTextAlignmentEvents p
    ++ ppTightWrapEvents p ++ ppOutlineEvents p
    ++ ppDefaultRunPropertiesEvents p
    ++ [XmlEvent.close "w:pPr"]

/-- Events of write_run (xml/write.rs lines 494 to 514): the run
properties element is written exactly when has_formatting() holds (for
RunProperties this is equality with the default), and the text element
carries the space-preserve attribute exactly when the flag is set. -/
def write_run (r : Run) : List XmlEvent :=
  [.start "w:r" []]
    ++ (if r.properties.has_formatting then writeRunProperties r.properties else [])
    ++ (if r.space_preserve then
          [.start "w:t" [("xml:space", "preserve")], .text r.text, .close "w:t"]
        else
          [.start "w:t" [], .text r.text, .close "w:t"])
    ++ [.close "w:r"]

/-- Events of write_hyperlink (xml/write.rs lines 478 to 492). -/
def write_hyperlink (h : Hyperlink) : List XmlEvent :=
  [.start "w:hyperlink" [("r:id", h.id)]]
    ++ h.runs.flatMap write_run
    ++ [.close "w:hyperlink"]

/-- Events of write_paragraph (xml/write.rs lines 132 to 147). -/
def write_paragraph (p : Paragraph) : List XmlEvent :=
  [.start "w:p" []]
    ++ (if p.properties.has_formatting then writeParagraphProperties p.properties else [])
    ++ p.children.flatMap (fun c =>
        match c with
        | .run r => write_run r
        | .hyperlink h => write_hyperlink h)
    ++ [.close "w:p"]

def wNsUrl : String := "http://schemas.openxmlformats.org/wordprocessingml/2006/main"
def rNsUrl : String := "http://schemas.openxmlformats.org/officeDocument/2006/relationships"

/-- Events of generate (xml/write.rs lines 107 to 130): the document
element with its two namespace attributes, the body, the paragraphs. -/
def generateEvents (document : Document) : List XmlEvent :=
  [.start "w:document" [("xmlns:w", wNsUrl), ("xmlns:r", rNsUrl)],
   .start "w:body" []]
    ++ document.paragraphs.flatMap write_paragraph
    ++ [.close "w:body", .close "w:document"]

/- ### Serialization of the event list (the XML library writer)

The writer emits elements back to back with no added whitespace; text
content and attribute values are escaped. -/

def escapeChar (c : Char) : String :=
  match c with
  | '<' => "&lt;"
  | '>' => "&gt;"
  | '&' => "&amp;"
  | '\x27' => "&apos;"
  | '"' => "&quot;"
  | c => String.mk [c]

def escapeXml (s : String) : String :=
  s.data.foldl (fun acc c => acc ++ escapeChar c) ""

def attrsString (attrs : List (String × String)) : String :=
  attrs.foldl (fun acc kv => acc ++ " " ++ kv.1 ++ "=\"" ++ escapeXml kv.2 ++ "\"") ""

def printEvent (e : XmlEvent) : String :=
  match e with
  | .start tag attrs => "<" ++ tag ++ attrsString attrs ++ ">"
  | .empty tag attrs => "<" ++ tag ++ attrsString attrs ++ "/>"
  | .text s => escapeXml s
  | .close tag => "</" ++ tag ++ ">"

/-- Byte-level output of generate: the concatenated serialization of the
emitted events. -/
def generate (document : Document) : String :=
  (generateEvents document).foldl (fun acc e => acc ++ printEvent e) ""

/- ### Concrete inputs used by the theorems -/

/-- Run with all-default properties. -/
def plainRun (t : String) : Run :=
  { properties := RunProperties.default, text := t, space_preserve := false }

/-- Run with the given bold and italic flags and preserve-whitespace flag. -/
def fmtRun (t : String) (b i sp : Bool) : Run :=
  { properties := { RunProperties.default with bold := b, italic := i }
    text := t, space_preserve := sp }

/-- The three-paragraph document of the round-trip property: one plain
run; a bold run, a single-space run (preserve-whitespace set), an italic
run; one bold-and-italic run. -/
def docC1 : Document :=
  { paragraphs :=
      [ { properties := ParagraphProperties.default
          children := [ParagraphChild.run (plainRun "Hello world")] },
        { properties := ParagraphProperties.default
          children :=
            [ParagraphChild.run (fmtRun "This is bold." true false false),
             ParagraphChild.run (fmtRun " " false false true),
             ParagraphChild.run (fmtRun "This is italic." false true false)] },
        { properties := ParagraphProperties.default
          children := [ParagraphChild.run (fmtRun "Bold and Italic." true true false)] } ]
    relationship_manager := RelationshipManager.new }

/-- What the decoder actually returns for the encoding of docC1: every
run comes back with all-default properties and a cleared
preserve-whitespace flag. -/
def docC1decoded : Document :=
  { paragraphs :=
      [ { properties := ParagraphProperties.default
          children := [ParagraphChild.run (plainRun "Hello world")] },
        { properties := ParagraphProperties.default
          children :=
            [ParagraphChild.run (plainRun "This is bold."),
             ParagraphChild.run (plainRun " "),
             ParagraphChild.run (plainRun "This is italic.")] },
        { properties := ParagraphProperties.default
          children := [ParagraphChild.run (plainRun "Bold and Italic.")] } ]
    relationship_manager := RelationshipManager.new }

/-- One-paragraph document with a single bold run. -/
def docC3 : Document :=
  { paragraphs :=
      [ { properties := ParagraphProperties.default
          children := [ParagraphChild.run (fmtRun "x" true false false)] } ]
    relationship_manager := RelationshipManager.new }

/-- Truncated input: an open paragraph, an open hyperlink, an open run
with text, and then end of input. -/
def evsC4 : List XmlEvent :=
  [XmlEvent.start "w:p" [], XmlEvent.start "w:hyperlink" [("r:id", "rId1")],
   XmlEvent.start "w:r" [], XmlEvent.text "a"]

/-- Decoding evsC4 (end of input): the open hyperlink is dropped and the
pending run lands in the paragraph as a bare run. -/
def docC4eof : Document :=
  { paragraphs :=
      [ { properties := ParagraphProperties.default
          children := [ParagraphChild.run (plainRun "a")] } ]
    relationship_manager := RelationshipManager.new }

/-- Decoding evsC4 followed by a close-paragraph event: the hyperlink is
folded into the paragraph with its pending run. -/
def docC4closed : Document :=
  { paragraphs :=
      [ { properties := ParagraphProperties.default
          children := [ParagraphChild.hyperlink { id := "rId1", runs := [plainRun "a"] }] } ]
    relationship_manager := RelationshipManager.new }

/-- Decoder state inside run-properties scope, as reached after open
paragraph, open run, open run-properties. -/
def dRPScope : CurrentData :=
  { CurrentData.new with in_run_properties := true
                         run_properties := some RunProperties.default
                         run := some Run.default
                         paragraph := some Paragraph.default
                         paragraph_properties := some ParagraphProperties.default }

/-- Decoder state inside paragraph-properties scope, as reached after
open paragraph, open paragraph-properties. -/
def dPPScope : CurrentData :=
  { CurrentData.new with in_paragraph_properties := true
                         paragraph := some Paragraph.default
                         paragraph_properties := some ParagraphProperties.default }

/-- Input with paragraph-properties markers for the paragraph-properties
witness: a paragraph whose pPr sets keep-next and center justification,
followed by a run. -/
def evsC10 : List XmlEvent :=
  [XmlEvent.start "w:p" [], XmlEvent.start "w:pPr" [],
   XmlEvent.empty "w:keepNext" [], XmlEvent.empty "w:jc" [("w:val", "center")],
   XmlEvent.close "w:pPr", XmlEvent.start "w:r" [], XmlEvent.start "w:t" [],
   XmlEvent.text "hi", XmlEvent.close "w:t", XmlEvent.close "w:r",
   XmlEvent.close "w:p"]

/-- The paragraph the decoder returns for evsC10: its properties are the
all-defaults record even though the input set two of them. -/
def parC10 : Paragraph :=
  { properties := ParagraphProperties.default
    children := [ParagraphChild.run (plainRun "hi")] }

def docC10 : Document :=
  { paragraphs := [parC10], relationship_manager := RelationshipManager.new }

/-- Invariant for the paragraph-properties claim: every pushed paragraph
and the in-progress paragraph carry the all-defaults paragraph
properties. -/
def InvPP (d : CurrentData) : Prop :=
  (∀ p ∈ d.document.paragraphs, p.properties = ParagraphProperties.default)
  ∧ (∀ p, d.paragraph = some p → p.properties = ParagraphProperties.default)

/- ### Theorems for the claims -/

/-- Claim C6: the claim states HexColor::new preserves the input exactly
when it is exactly 6 hex digits and otherwise substitutes the fallback,
and that change_value fails exactly when the input is not exactly 6 hex
digits. The first three conjuncts are the documented examples, which
hold; the last two evaluate the code at the three-character hex string
FFF: the length test of check_hex applies a bitwise NOT to the length
before comparing with 6, so it never fires, FFF is accepted by new and
by change_value, and the claim (and the 6-digit contract of the type
documentation) is violated. -/
theorem c6_hex_length_check_eval :
    HexColor.new "FF00FF" = ⟨"FF00FF"⟩
    ∧ HexColor.new "zzz" = ⟨"FFFFFF"⟩
    ∧ (HexColor.new "FF00FF").change_value "zzz"
        = (⟨"FF00FF"⟩, some (.invalidHex "zzz"))
    ∧ HexColor.new "FFF" = ⟨"FFF"⟩
    ∧ (HexColor.new "FF00FF").change_value "FFF" = (⟨"FFF"⟩, none) := by
  decide

/-- Claim C7 counterexample: the claim states that no reachable
ParagraphIndentation ever has both hanging and first-line set, because
mutation into that state fails. Constructing with only hanging set and
then mutating first-line succeeds and yields a value with both fields
set, refuting the claim. -/
theorem c7_counterexample :
    (ParagraphIndentation.new none none none none none none (some 1) none).map
        (fun pi => pi.change_first_line (some 2))
      = .ok { ParagraphIndentation.default with hanging := some 1, first_line := some 2 } := by
  decide

/-- Claim C7 amended: constructing with both hanging and first-line set
fails with the mutually-exclusive error and constructing with at most
one of them set succeeds; but the mutators are unchecked field setters
(change_first_line and change_hanging just store the value), so mutation
can reach a state with both set. -/
theorem c7_amended :
    (∀ l lc r rc fl flc h hc, h ≠ none → fl ≠ none →
      ParagraphIndentation.new l lc r rc fl flc h hc
        = .error (.mutuallyExclusive "hanging" "firstLine"))
    ∧ (∀ l lc r rc fl flc h hc, h = none ∨ fl = none →
      ParagraphIndentation.new l lc r rc fl flc h hc
        = .ok { left := l, left_chars := lc, right := r, right_chars := rc
                first_line := fl, first_line_chars := flc, hanging := h
                hanging_chars := hc })
    ∧ (∀ (pi : ParagraphIndentation) v,
        pi.change_first_line v = { pi with first_line := v })
    ∧ (∀ (pi : ParagraphIndentation) v,
        pi.change_hanging v = { pi with hanging := v }) := by
  refine ⟨?_, ?_, ?_, ?_⟩
  · intro l lc r rc fl flc h hc hh hf
    unfold ParagraphIndentation.new
    rw [if_pos]
    exact ⟨Option.isSome_iff_ne_none.mpr hh, Option.isSome_iff_ne_none.mpr hf⟩
  · intro l lc r rc fl flc h hc hor
    unfold ParagraphIndentation.new
    rw [if_neg]
    rintro ⟨hh, hf⟩
    rcases hor with h0 | h0 <;> simp [h0] at hh hf
  · intro pi v; rfl
  · intro pi v; rfl

/-- Claim C7 amended witness: the amended statement applied at concrete
inputs. -/
theorem c7_amended_witness :
    ParagraphIndentation.new none none none none (some 2) none (some 1) none
      = .error (.mutuallyExclusive "hanging" "firstLine")
    ∧ ParagraphIndentation.new none none none none none none (some 1) none
      = .ok { left := none, left_chars := none, right := none, right_chars := none
              first_line := none, first_line_chars := none, hanging := some 1
              hanging_chars := none }
    ∧ (ParagraphIndentation.default.change_first_line (some 2))
        = { ParagraphIndentation.default with first_line := some 2 } :=
  ⟨c7_amended.1 none none none none (some 2) none (some 1) none
      (by decide) (by decide),
   c7_amended.2.1 none none none none none none (some 1) none (Or.inr rfl),
   c7_amended.2.2.1 ParagraphIndentation.default (some 2)⟩

/-- Claim C2: the claim states has_formatting is false exactly on the
all-defaults record and the encoder omits the wrapping properties
element exactly for default records. This holds for
ParagraphProperties (last four conjuncts) but is inverted for
RunProperties: has_formatting of the default record is true, a bold-only
record gives false, and write_run therefore emits an empty w:rPr for a
default run and omits w:rPr for a bold run. -/
theorem c2_has_formatting_inverted_eval :
    RunProperties.has_formatting RunProperties.default = true
    ∧ RunProperties.has_formatting { RunProperties.default with bold := true } = false
    ∧ (XmlEvent.start "w:rPr" []) ∈ write_run Run.default
    ∧ (XmlEvent.start "w:rPr" [])
        ∉ write_run { Run.default with
                      properties := { RunProperties.default with bold := true } }
    ∧ ParagraphProperties.has_formatting ParagraphProperties.default = false
    ∧ ParagraphProperties.has_formatting
        { ParagraphProperties.default with keep_next := true } = true
    ∧ (XmlEvent.start "w:pPr" []) ∉ write_paragraph Paragraph.default
    ∧ (XmlEvent.start "w:pPr" [])
        ∈ write_paragraph { Paragraph.default with
                            properties := { ParagraphProperties.default with keep_next := true } } := by
  decide

/-- Claim C1: the claim states decode after encode is the identity, in
particular on the concrete three-paragraph document. Evaluating the
code: the encoding of docC1 decodes to docC1decoded, in which every
formatted run has lost its bold and italic flags (write_run emits the
run-properties element exactly when has_formatting() holds, and
RunProperties::has_formatting is inverted) and the single-space run has
lost its preserve-whitespace flag (the decoder ignores the xml:space
attribute), so the round trip fails. -/
theorem c1_roundtrip_fails_eval :
    parse (generateEvents docC1) = .ok docC1decoded ∧ docC1decoded ≠ docC1 := by
  constructor
  · decide
  · decide

set_option maxRecDepth 4000 in
/-- Claim C3: the claim states encode after decode after encode equals
encode byte for byte. For the one-bold-run document docC3 the first
encoding has no run-properties element (inverted has_formatting), the
decode loses the bold flag, and the re-encoding of the now-default run
carries an empty w:rPr element, so the two encodings differ as strings. -/
theorem c3_wire_idempotence_fails_eval :
    (parse (generateEvents docC3)).map generate ≠ .ok (generate docC3) := by
  decide

/-- Claim C4: the claim states end of input performs the same folding as
close paragraph-marker. On the truncated stream evsC4 (open paragraph,
open hyperlink, open run with text, end of input) the decoder returns a
paragraph with a bare run and no hyperlink, while the same stream closed
with a close-paragraph event returns the paragraph with the hyperlink
holding that run: handle_eof re-takes the already-taken paragraph, so
its hyperlink folding never executes. -/
theorem c4_eof_differs_from_close_paragraph_eval :
    parse evsC4 = .ok docC4eof
    ∧ parse (evsC4 ++ [XmlEvent.close "w:p"]) = .ok docC4closed
    ∧ docC4eof ≠ docC4closed := by
  refine ⟨by decide, by decide, by decide⟩

/-- Claim C5 counterexample: the claim states a non-numeric paragraph
indentation attribute aborts the decode with a parse error; feeding the
indentation marker with a non-numeric left offset decodes successfully
(the attribute defaults to 0 via unwrap_or). -/
theorem c5_counterexample :
    parse [XmlEvent.start "w:p" [], XmlEvent.start "w:pPr" [],
           XmlEvent.empty "w:ind" [("w:left", "abc")]]
      = .ok { paragraphs := [Paragraph.default]
              relationship_manager := RelationshipManager.new } := by
  decide

/-- Claim C5 amended: the size and character-spacing markers parse their
value attribute as an integer and abort the decode with a parse error on
non-numeric input, while the paragraph-indentation marker never fails
(each of its numeric attributes falls back to 0) and a non-numeric
outline level defaults to 0. -/
theorem c5_amended :
    (∀ (d : CurrentData) (attrs : List (String × String)) (v : String),
        d.in_run_properties = true → d.run_properties.isSome = true →
        attrVal attrs "w:val" = some v → rustParseU32 v = none →
        handleEmptyTag "w:sz" attrs d = .error (.numParseError v))
    ∧ (∀ (d : CurrentData) (attrs : List (String × String)) (v : String),
        d.in_run_properties = true → d.run_properties.isSome = true →
        attrVal attrs "w:val" = some v → rustParseU32 v = none →
        handleEmptyTag "w:spacing" attrs d = .error (.numParseError v))
    ∧ (∀ (d : CurrentData) (attrs : List (String × String)),
        ∃ d1, handleEmptyTag "w:ind" attrs d = .ok d1)
    ∧ (∀ (d : CurrentData) (pp : ParagraphProperties)
          (attrs : List (String × String)) (v : String),
        d.in_paragraph_properties = true → d.paragraph_properties = some pp →
        attrVal attrs "w:val" = some v → rustParseU8 v = none →
        handleEmptyTag "w:outlineLvl" attrs d
          = .ok { d with
              paragraph_properties := some ({ pp with outline_level := some 0 }) }) := by
  refine ⟨?_, ?_, ?_, ?_⟩
  · intro d attrs v hin hsome hval hparse
    obtain ⟨p, hp⟩ := Option.isSome_iff_exists.mp hsome
    simp only [handleEmptyTag, hin, hp, hval, hparse, if_true]
  · intro d attrs v hin hsome hval hparse
    obtain ⟨p, hp⟩ := Option.isSome_iff_exists.mp hsome
    simp only [handleEmptyTag, hin, hp, hval, hparse, if_true]
  · intro d attrs
    exact ⟨_, rfl⟩
  · intro d pp attrs v hin hpp hval hparse
    simp only [handleEmptyTag, updPP, hin, hpp, hval, hparse, if_true,
      Option.getD_none]

/-- Claim C5 amended witness: the amended statement applied in the
run-properties and paragraph-properties scopes with the non-numeric
value abc. -/
theorem c5_amended_witness :
    handleEmptyTag "w:sz" [("w:val", "abc")] dRPScope
      = .error (.numParseError "abc")
    ∧ handleEmptyTag "w:spacing" [("w:val", "abc")] dRPScope
      = .error (.numParseError "abc")
    ∧ (∃ d1, handleEmptyTag "w:ind" [("w:left", "abc")] dPPScope = .ok d1)
    ∧ handleEmptyTag "w:outlineLvl" [("w:val", "abc")] dPPScope
      = .ok { dPPScope with
          paragraph_properties :=
            some ({ ParagraphProperties.default with outline_level := some 0 }) } :=
  ⟨c5_amended.1 dRPScope [("w:val", "abc")] "abc" (by decide) (by decide)
      (by decide) (by decide),
   c5_amended.2.1 dRPScope [("w:val", "abc")] "abc" (by decide) (by decide)
      (by decide) (by decide),
   c5_amended.2.2.1 dPPScope [("w:left", "abc")],
   c5_amended.2.2.2 dPPScope ParagraphProperties.default [("w:val", "abc")] "abc"
      (by decide) (by decide) (by decide) (by decide)⟩

/-- Claim C8: on a fresh registry three successive generate_rid calls
return rId1, rId2, rId3 in order, the resulting map holds exactly those
three bindings, and the first call on any fresh registry returns rId1,
whatever other registries exist (the registry is a plain per-instance
value with no shared state, so a second instance is unaffected by the
first). -/
theorem c8_generate_rid_order (t1 t2 t3 t4 : String) :
    (genAll RelationshipManager.new [t1, t2, t3]).1 = ["rId1", "rId2", "rId3"]
    ∧ (genAll RelationshipManager.new [t1, t2, t3]).2.get_links
        = [("rId1", t1), ("rId2", t2), ("rId3", t3)]
    ∧ (RelationshipManager.new.generate_rid t4).1 = "rId1" := by
  have e1 : ridString 1 = "rId1" := by decide
  have e2 : ridString 2 = "rId2" := by decide
  have e3 : ridString 3 = "rId3" := by decide
  have m1 : (0 + 1) % 2 ^ 32 = 1 := by norm_num
  have m2 : (1 + 1) % 2 ^ 32 = 2 := by norm_num
  have m3 : (2 + 1) % 2 ^ 32 = 3 := by norm_num
  refine ⟨?_, ?_, ?_⟩ <;>
    simp [genAll, RelationshipManager.generate_rid, RelationshipManager.new,
      insertLink, RelationshipManager.get_links, List.lookup, e1, e2, e3, m1, m2, m3]

/- ### Helper lemmas on decimal printing and parsing (for the registry
claims) -/

lemma charVal_digitChar {n : Nat} (h : n < 10) : charVal (Nat.digitChar n) = n := by
  interval_cases n <;> decide

lemma isDigit_digitChar {n : Nat} (h : n < 10) : (Nat.digitChar n).isDigit = true := by
  interval_cases n <;> decide

lemma digitsVal_append (l : List Char) (c : Char) :
    digitsVal (l ++ [c]) = 10 * digitsVal l + charVal c := by
  simp [digitsVal, List.foldl_append]
  ring

lemma natCharsAux_spec :
    ∀ f n, n < f →
      natCharsAux f n ≠ [] ∧ (natCharsAux f n).all Char.isDigit = true
        ∧ digitsVal (natCharsAux f n) = n := by
  intro f
  induction f with
  | zero => intro n h; omega
  | succ f ih =>
    intro n h
    by_cases h10 : n < 10
    · refine ⟨by simp [natCharsAux, h10], ?_, ?_⟩
      · simp [natCharsAux, h10, isDigit_digitChar h10]
      · simp [natCharsAux, h10, digitsVal, charVal_digitChar h10]
    · have hpos : 0 < n := by omega
      have hdiv : n / 10 < f :=
        lt_of_lt_of_le (Nat.div_lt_self hpos (by norm_num)) (by omega)
      obtain ⟨hne, hall, hval⟩ := ih (n / 10) hdiv
      have hmod : n % 10 < 10 := Nat.mod_lt n (by norm_num)
      rw [natCharsAux, if_neg h10]
      refine ⟨by simp, ?_, ?_⟩
      · simp [List.all_append, hall, isDigit_digitChar hmod]
      · rw [digitsVal_append, hval, charVal_digitChar hmod]
        omega

lemma natChars_spec (n : Nat) :
    natChars n ≠ [] ∧ (natChars n).all Char.isDigit = true
      ∧ digitsVal (natChars n) = n :=
  natCharsAux_spec (n + 1) n (Nat.lt_succ_self n)

lemma isDigit_ne_sign {c : Char} (h : c.isDigit = true) : ¬(c = '+' ∨ c = '-') := by
  rintro (rfl | rfl) <;> exact absurd h (by decide)

lemma parse_natChars {w n : Nat} (h : n < 2 ^ w) :
    rustParseUnsignedCore w (natChars n) = some n := by
  obtain ⟨hne, hall, hval⟩ := natChars_spec n
  rcases hl : natChars n with _ | ⟨c, cs⟩
  · exact absurd hl hne
  · rw [hl] at hall hval
    have hc : c.isDigit = true := by
      have hx := List.all_eq_true.mp hall
      exact hx c (by simp)
    have hpm := isDigit_ne_sign hc
    have hcminus : ¬ c = '-' := fun e => hpm (Or.inr e)
    have hcplus : ¬ c = '+' := fun e => hpm (Or.inl e)
    have hall2 := List.all_eq_true.mp hall
    simp only [rustParseUnsignedCore]
    simp [hcplus, hcminus, hall, hval, h, hall2]

lemma parseRId_ridString {n : Nat} (h : n < 2 ^ 32) :
    parseRId (ridString n) = some n := by
  show parseRId ⟨'r' :: 'I' :: 'd' :: natChars n⟩ = some n
  simp only [parseRId]
  simp
  exact parse_natChars h

lemma add_counter_mono (m : RelationshipManager) (id t : String) :
    m.counter ≤ (m.add_relationship id t).counter := by
  simp only [RelationshipManager.add_relationship]
  cases hp : parseRId id <;> simp [hp]

lemma add_counter_seeds {m : RelationshipManager} {id t : String} {N : Nat}
    (h : parseRId id = some N) : N ≤ (m.add_relationship id t).counter := by
  simp only [RelationshipManager.add_relationship, h]
  exact le_max_right _ _

lemma addAll_counter_mono : ∀ (adds : List (String × String)) (m : RelationshipManager),
    m.counter ≤ (addAll m adds).counter := by
  intro adds
  induction adds with
  | nil => intro m; simp [addAll]
  | cons p rest ih =>
    intro m
    have h1 : addAll m (p :: rest) = addAll (m.add_relationship p.1 p.2) rest := rfl
    rw [h1]
    exact le_trans (add_counter_mono m p.1 p.2) (ih _)

lemma addAll_seeds : ∀ (adds : List (String × String)) (m : RelationshipManager)
    {id t : String} {N : Nat}, (id, t) ∈ adds → parseRId id = some N →
    N ≤ (addAll m adds).counter := by
  intro adds
  induction adds with
  | nil => intro m id t N hmem; simp at hmem
  | cons p rest ih =>
    intro m id t N hmem hp
    have h1 : addAll m (p :: rest) = addAll (m.add_relationship p.1 p.2) rest := rfl
    rw [h1]
    rcases List.mem_cons.mp hmem with heq | hmem2
    · have hfst : p.1 = id := by rw [← heq]
      exact le_trans (add_counter_seeds (hfst ▸ hp)) (addAll_counter_mono rest _)
    · exact ih _ hmem2 hp

lemma genAll_ids : ∀ (ts : List String) (m : RelationshipManager),
    m.counter + ts.length < 2 ^ 32 →
    (genAll m ts).1 = (List.range ts.length).map (fun i => ridString (m.counter + i + 1)) := by
  intro ts
  induction ts with
  | nil => intro m h; simp [genAll]
  | cons t ts ih =>
    intro m h
    have hlen : m.counter + (ts.length + 1) < 2 ^ 32 := by simpa using h
    have hc : (m.counter + 1) % 2 ^ 32 = m.counter + 1 :=
      Nat.mod_eq_of_lt (by omega)
    have ih2 := ih
      { counter := m.counter + 1
        links := insertLink m.links (ridString (m.counter + 1)) t }
      (by simp; omega)
    simp only [genAll, RelationshipManager.generate_rid, hc] at ih2 ⊢
    simp only [List.length_cons]
    rw [ih2, List.range_succ_eq_map]
    simp only [List.map_cons, List.map_map, Nat.add_zero]
    congr 1
    apply List.map_congr_left
    intro i _
    simp only [Function.comp]
    congr 1
    omega

lemma lookup_map_overwrite : ∀ (links : List (String × String)) (id t : String),
    (links.lookup id).isSome = true →
    (links.map fun p => if p.1 = id then (id, t) else p).lookup id = some t := by
  intro links id t
  induction links with
  | nil => intro hp; simp at hp
  | cons kv rest ih =>
    intro hp
    obtain ⟨k, v⟩ := kv
    by_cases hk : k = id
    · subst hk
      rw [List.map_cons, if_pos (show ((k, v) : String × String).1 = k from rfl)]
      simp [List.lookup]
    · have hk2 : ¬ id = k := fun e => hk e.symm
      have hbeq : (id == k) = false := by simp [hk2]
      simp only [List.map_cons]
      rw [if_neg hk]
      simp only [List.lookup, hbeq] at hp ⊢
      exact ih hp

lemma lookup_append_right : ∀ (links : List (String × String)) (id t : String),
    links.lookup id = none → (links ++ [(id, t)]).lookup id = some t := by
  intro links id t
  induction links with
  | nil => intro _; simp [List.lookup]
  | cons kv rest ih =>
    intro hp
    obtain ⟨k, v⟩ := kv
    by_cases hk : id = k
    · simp [List.lookup, hk] at hp
    · have hbeq : (id == k) = false := by simp [hk]
      simp only [List.lookup, hbeq] at hp
      simp only [List.cons_append, List.lookup, hbeq]
      exact ih hp

lemma lookup_insertLink (links : List (String × String)) (id t : String) :
    (insertLink links id t).lookup id = some t := by
  unfold insertLink
  split
  · exact lookup_map_overwrite links id t (by assumption)
  · rename_i hns
    apply lookup_append_right
    cases hl : links.lookup id with
    | none => rfl
    | some v => rw [hl] at hns; simp at hns

/-- Claim C9 amended: adding an id of the rId-number shape advances the
counter to at least that number; adding a non-matching id records the
binding and leaves the counter unchanged; and every id returned by a
subsequent generate_rid call differs from every previously added id as
long as the counter stays below the u32 wrap boundary (the counter is a
u32 and wraps at 2 to the 32, at which point generated ids restart at
rId0 and can repeat earlier ids; see the counterexample). -/
theorem c9_amended (m0 : RelationshipManager) (adds : List (String × String))
    (targets : List String) :
    (∀ id t N, (id, t) ∈ adds → parseRId id = some N → N ≤ (addAll m0 adds).counter)
    ∧ (∀ (m : RelationshipManager) (id t : String), parseRId id = none →
        (m.add_relationship id t).counter = m.counter
        ∧ (m.add_relationship id t).links.lookup id = some t)
    ∧ ((addAll m0 adds).counter + targets.length < 2 ^ 32 →
        ∀ rid ∈ (genAll (addAll m0 adds) targets).1,
        ∀ id t, (id, t) ∈ adds → rid ≠ id) := by
  refine ⟨?_, ?_, ?_⟩
  · intro id t N hmem hp
    exact addAll_seeds adds m0 hmem hp
  · intro m id t hp
    constructor
    · simp [RelationshipManager.add_relationship, hp]
    · simp only [RelationshipManager.add_relationship]
      exact lookup_insertLink m.links id t
  · intro hbound rid hmem id t hadds heq
    rw [genAll_ids targets _ hbound] at hmem
    obtain ⟨i, hi, hrid⟩ := List.mem_map.mp hmem
    have hi2 : i < targets.length := List.mem_range.mp hi
    have hlt : (addAll m0 adds).counter + i + 1 < 2 ^ 32 := by omega
    have hpg : parseRId rid = some ((addAll m0 adds).counter + i + 1) := by
      rw [← hrid]
      exact parseRId_ridString hlt
    rw [heq] at hpg
    cases hcase : parseRId id with
    | none => rw [hcase] at hpg; exact Option.noConfusion hpg
    | some N =>
      have hN : N ≤ (addAll m0 adds).counter := addAll_seeds adds m0 hadds hcase
      rw [hcase] at hpg
      have hNe : N = (addAll m0 adds).counter + i + 1 := Option.some.inj hpg
      omega

/-- Claim C9 amended witness: after seeding a fresh registry with rId2,
the first generated id is rId3, distinct from the seeded id. -/
theorem c9_amended_witness : "rId3" ≠ "rId2" :=
  (c9_amended RelationshipManager.new [("rId2", "a")] ["b", "c"]).2.2 (by decide)
    "rId3" (by decide) "rId2" "a" (by decide)

/-- Claim C9 counterexample: the claim as stated promises that generated
ids never collide with previously added ids, with no proviso. Seeding a
fresh registry with rId1 and rId4294967295 (the u32 maximum) makes the
counter wrap: the two following generate_rid calls return rId0 and then
rId1, and rId1 equals an id added earlier. -/
theorem c9_counterexample :
    (genAll (addAll RelationshipManager.new
        [("rId1", "a"), ("rId4294967295", "b")]) ["c", "d"]).1
      = ["rId0", "rId1"]
    ∧ (addAll RelationshipManager.new
        [("rId1", "a"), ("rId4294967295", "b")]).links.lookup "rId1"
      = some "a" := by
  decide

/- ### Invariant lemmas: the decoder never writes to the properties field
of a paragraph (for claim C10) -/

lemma inv_handleOpenTag (tag : String) (attrs : List (String × String))
    (d : CurrentData) (h : InvPP d) : InvPP (handleOpenTag tag attrs d) := by
  obtain ⟨hdoc, hpar⟩ := h
  unfold handleOpenTag
  repeat' split
  all_goals refine ⟨?_, ?_⟩
  all_goals intro p hp
  all_goals try exact hdoc p hp
  all_goals try exact hpar p hp
  all_goals simp_all [List.mem_append, Paragraph.default]
  all_goals try (rcases hp with hp | rfl)
  all_goals try exact hdoc p hp
  all_goals try assumption
  all_goals rfl

lemma inv_handleText (d : CurrentData) (text : String) (h : InvPP d) :
    InvPP (handleText d text) := by
  obtain ⟨hdoc, hpar⟩ := h
  unfold handleText
  split
  · exact ⟨hdoc, hpar⟩
  · exact ⟨hdoc, hpar⟩

lemma inv_handleCloseTag (tag : String) (d : CurrentData) (h : InvPP d) :
    InvPP (handleCloseTag tag d) := by
  obtain ⟨hdoc, hpar⟩ := h
  unfold handleCloseTag
  repeat' split
  all_goals refine ⟨?_, ?_⟩
  all_goals intro p hp
  all_goals try exact hdoc p hp
  all_goals try exact hpar p hp
  all_goals simp_all [List.mem_append]
  all_goals try (rcases hp with hp | rfl)
  all_goals try exact hdoc p hp
  all_goals try assumption
  all_goals rfl

lemma inv_handleEof (d : CurrentData) (h : InvPP d) :
    ∀ p ∈ (handleEof d).document.paragraphs, p.properties = ParagraphProperties.default := by
  obtain ⟨hdoc, hpar⟩ := h
  unfold handleEof
  repeat' split
  all_goals intro p hp
  all_goals simp_all [List.mem_append]
  all_goals try (rcases hp with hp | rfl)
  all_goals try exact hdoc p hp
  all_goals try assumption
  all_goals rfl

lemma updRP_fields (d : CurrentData) (f : RunProperties → RunProperties) :
    (updRP d f).document = d.document ∧ (updRP d f).paragraph = d.paragraph := by
  unfold updRP
  split
  · split <;> exact ⟨rfl, rfl⟩
  · exact ⟨rfl, rfl⟩

lemma updPP_fields (d : CurrentData) (f : ParagraphProperties → ParagraphProperties) :
    (updPP d f).document = d.document ∧ (updPP d f).paragraph = d.paragraph := by
  unfold updPP
  split
  · split <;> exact ⟨rfl, rfl⟩
  · exact ⟨rfl, rfl⟩

lemma boolTagPP_fields (attrs : List (String × String)) (d : CurrentData)
    (s : ParagraphProperties → ParagraphProperties) :
    (boolTagPP attrs d s).document = d.document
      ∧ (boolTagPP attrs d s).paragraph = d.paragraph :=
  updPP_fields d _

/-- The self-closing-tag handler only touches the scratch property
records, never the document or the in-progress paragraph. -/
lemma handleEmptyTag_fields (tag : String) (attrs : List (String × String))
    (d d1 : CurrentData) (h : handleEmptyTag tag attrs d = .ok d1) :
    d1.document = d.document ∧ d1.paragraph = d.paragraph := by
  unfold handleEmptyTag at h
  repeat' split at h
  all_goals cases h
  all_goals first
    | exact updRP_fields d _
    | exact updPP_fields d _
    | exact boolTagPP_fields _ d _
    | exact ⟨((updPP_fields _ _).1).trans ((updRP_fields d _).1),
             ((updPP_fields _ _).2).trans ((updRP_fields d _).2)⟩
    | exact ⟨rfl, rfl⟩

lemma inv_stepEvent (d d1 : CurrentData) (e : XmlEvent)
    (hstep : stepEvent d e = .ok d1) (h : InvPP d) : InvPP d1 := by
  cases e with
  | start tag attrs =>
    have hd : d1 = handleOpenTag tag attrs d := by
      simpa [stepEvent] using hstep.symm
    rw [hd]
    exact inv_handleOpenTag tag attrs d h
  | empty tag attrs =>
    obtain ⟨hdocEq, hparEq⟩ := handleEmptyTag_fields tag attrs d d1 hstep
    obtain ⟨hdoc, hpar⟩ := h
    refine ⟨?_, ?_⟩
    · intro p hp
      exact hdoc p (by rw [← hdocEq]; exact hp)
    · intro p hp
      exact hpar p (by rw [← hparEq]; exact hp)
  | text s =>
    have hd : d1 = handleText d s := by
      simpa [stepEvent] using hstep.symm
    rw [hd]
    exact inv_handleText d s h
  | close tag =>
    have hd : d1 = handleCloseTag tag d := by
      simpa [stepEvent] using hstep.symm
    rw [hd]
    exact inv_handleCloseTag tag d h

lemma runEvents_inv : ∀ (evs : List XmlEvent) (d : CurrentData), InvPP d →
    ∀ c, runEvents d evs = .ok c →
    ∀ p ∈ c.document.paragraphs, p.properties = ParagraphProperties.default := by
  intro evs
  induction evs with
  | nil =>
    intro d hInv c hrun
    have hc : c = handleEof d := by
      simpa [runEvents] using hrun.symm
    rw [hc]
    exact inv_handleEof d hInv
  | cons e rest ih =>
    intro d hInv c hrun
    simp only [runEvents] at hrun
    cases hstep : stepEvent d e with
    | error err => rw [hstep] at hrun; cases hrun
    | ok d1 =>
      rw [hstep] at hrun
      exact ih d1 (inv_stepEvent d d1 e hstep hInv) c hrun

/-- Claim C10: for every event stream the decoder accepts, every
paragraph of the returned document has the all-defaults paragraph
properties: the handlers build paragraph properties only in the scratch
state and never attach that record to the paragraph pushed at
close-paragraph or end of input, so paragraph-properties markers in the
input never affect the decoded document. -/
theorem c10_paragraph_properties_never_attached :
    ∀ (evs : List XmlEvent) (doc : Document), parse evs = .ok doc →
    ∀ p ∈ doc.paragraphs, p.properties = ParagraphProperties.default := by
  intro evs doc hparse p hp
  unfold parse at hparse
  cases hrun : runEvents CurrentData.new evs with
  | error e => rw [hrun] at hparse; cases hparse
  | ok c =>
    rw [hrun] at hparse
    have hdoc : doc = c.document := by
      simpa [Except.map] using hparse.symm
    subst hdoc
    have hInv : InvPP CurrentData.new :=
      ⟨by simp [CurrentData.new, Document.default], by simp [CurrentData.new]⟩
    exact runEvents_inv evs CurrentData.new hInv c hrun p hp

/-- Claim C10 witness: the theorem applied to the concrete input evsC10,
whose paragraph-properties markers set keep-next and center
justification; the decoded paragraph still carries the all-defaults
record. -/
theorem c10_witness : parC10.properties = ParagraphProperties.default :=
  c10_paragraph_properties_never_attached evsC10 docC10 (by decide) parC10 (by decide)

end Rudocx
